import Mathlib

/-!
Verification of the Career Pathfinder backend (src/main.py): a fixed
12-question RIASEC questionnaire, a scoring endpoint that tallies answers
into six category counters, selects top categories, maps them to career
suggestions and a summary, and best-effort persists the result.

The Python code is shallowly embedded below. Dictionaries with a fixed key
set (the scores dict, initialised with the six category keys in order
R, I, A, S, E, C and never extended) are modelled as a function from keys
to counts plus an items list in insertion order. Python's sorted (a stable
sort) with reverse=True on the score is modelled by a stable insertion
sort that orders by strictly greater score and otherwise keeps input
order. HTTPException is modelled by an error record carried in Except;
the persistence collaborator create_document (in database.py, outside the
scoring core) is a parameter of assess returning Except, since the code
catches every exception from it.
-/

/-- An element of the QUESTIONS catalog: id, prompt text, the two option
labels (dict keys "A" and "B") and the category tag (dict key "type"). -/
structure Question where
  id : Int
  text : String
  A : String
  B : String
  type : String
deriving Repr, DecidableEq

/-- `class Answer(BaseModel)`: a submitted answer. -/
structure Answer where
  question_id : Int
  choice : String
deriving Repr, DecidableEq

/-- `class AssessmentRequest(BaseModel)`. -/
structure AssessmentRequest where
  name : Option String := none
  email : Option String := none
  answers : List Answer
deriving Repr, DecidableEq

/-- The QUESTIONS constant of src/main.py, verbatim. -/
def QUESTIONS : List Question := [
  ⟨1, "I enjoy building or fixing things with my hands.", "Agree", "Disagree", "R"⟩,
  ⟨2, "I like working with tools or machines.", "Agree", "Disagree", "R"⟩,
  ⟨3, "I enjoy solving math or science problems.", "Agree", "Disagree", "I"⟩,
  ⟨4, "I like analyzing data and figuring out how things work.", "Agree", "Disagree", "I"⟩,
  ⟨5, "I like to create art, music, or write.", "Agree", "Disagree", "A"⟩,
  ⟨6, "I prefer unstructured tasks where I can be original.", "Agree", "Disagree", "A"⟩,
  ⟨7, "I enjoy helping people and improving their lives.", "Agree", "Disagree", "S"⟩,
  ⟨8, "I like teaching, counseling, or caring roles.", "Agree", "Disagree", "S"⟩,
  ⟨9, "I like leading projects and persuading others.", "Agree", "Disagree", "E"⟩,
  ⟨10, "I enjoy business, sales, or entrepreneurship.", "Agree", "Disagree", "E"⟩,
  ⟨11, "I prefer organizing information and keeping things orderly.", "Agree", "Disagree", "C"⟩,
  ⟨12, "I enjoy working with data, records, and details.", "Agree", "Disagree", "C"⟩]

/-- CAREER_MAP of src/main.py, as a function; `CAREER_MAP.get(t, [])`
returns the empty list on an unknown key, which the default branch gives. -/
def CAREER_MAP : String → List String := fun t =>
  if t = "R" then ["Mechanical Engineer", "Electrician", "Carpenter", "Automotive Technician"]
  else if t = "I" then ["Data Scientist", "Research Analyst", "Software Developer", "Biologist"]
  else if t = "A" then ["Graphic Designer", "Writer", "Musician", "UX Designer"]
  else if t = "S" then ["Teacher", "Nurse", "Social Worker", "Therapist"]
  else if t = "E" then ["Marketing Manager", "Sales Representative", "Entrepreneur", "Product Manager"]
  else if t = "C" then ["Accountant", "Operations Coordinator", "Data Entry Specialist", "Admin Assistant"]
  else []

/-- SUMMARY_BLURBS of src/main.py. In the code it is a dict indexed only at
the six category codes; the default branch is unreachable at call sites. -/
def SUMMARY_BLURBS : String → String := fun t =>
  if t = "R" then "Hands-on, practical, and mechanical. You enjoy building, fixing, and working with tools."
  else if t = "I" then "Analytical and curious. You enjoy research, problem-solving, and understanding how things work."
  else if t = "A" then "Creative and expressive. You value originality and enjoy artistic or design-focused tasks."
  else if t = "S" then "Supportive and people-oriented. You find meaning in helping and teaching others."
  else if t = "E" then "Persuasive and leadership-driven. You thrive in business, sales, and leading initiatives."
  else if t = "C" then "Organized and detail-focused. You keep systems running smoothly and accurately."
  else ""

/-- The insertion order of the scores dict keys:
`scores = \x7bk: 0 for k in ["R", "I", "A", "S", "E", "C"]\x7d`. -/
def categoryKeys : List String := ["R", "I", "A", "S", "E", "C"]

/-- `scores.items()`: the scores dict in insertion order (the six keys are
set at initialisation and never added to afterwards). -/
def scoresItems (f : String → Nat) : List (String × Nat) :=
  categoryKeys.map (fun k => (k, f k))

/-- `scores[k] += 1` on the scores dict viewed as a function. -/
def bump (f : String → Nat) (k : String) : String → Nat :=
  fun x => if x = k then f x + 1 else f x

/-- An HTTPException raised by the endpoint: status code and detail. -/
structure HTTPError where
  status_code : Nat
  detail : String
deriving Repr, DecidableEq

/-- `q_index.get(ans.question_id)`: `q_index` maps each question id to its
catalog entry (ids are unique, so the first match is the entry). -/
def q_lookup (qid : Int) : Option Question :=
  QUESTIONS.find? (fun q => q.id = qid)

/-- The validation-and-tally loop of assess (src/main.py lines 77-84),
with the scores dict threaded through. -/
def tally (f : String → Nat) : List Answer → Except HTTPError (String → Nat)
  | [] => Except.ok f
  | ans :: rest =>
    match q_lookup ans.question_id with
    | none => Except.error ⟨400, "Invalid question id: " ++ toString ans.question_id⟩
    | some q =>
      if ans.choice ≠ "A" ∧ ans.choice ≠ "B" then
        Except.error ⟨400, "Choice must be \x27A\x27 or \x27B\x27"⟩
      else if ans.choice = "A" then tally (bump f q.type) rest
      else tally f rest

/-- One step of the stable descending insertion modelling Python's
`sorted(..., key=lambda x: x[1], reverse=True)`: an element moves past
another only when its score is strictly greater. -/
def insertDesc (p : String × Nat) : List (String × Nat) → List (String × Nat)
  | [] => [p]
  | q :: rest => if q.2 ≤ p.2 then p :: q :: rest else q :: insertDesc p rest

/-- Stable sort by score descending, ties in input order (the semantics of
Python's sorted with reverse=True on the score component). -/
def sortDesc : List (String × Nat) → List (String × Nat)
  | [] => []
  | p :: rest => insertDesc p (sortDesc rest)

/-- Top-type selection of assess (src/main.py lines 87-89):
`sorted_types = sorted(scores.items(), key=lambda x: x[1], reverse=True)`,
`max_score = sorted_types[0][1]`, then the filtered comprehension truncated
to 2 with the falsy-list fallback `or [sorted_types[0][0]]`. The scores
dict always has six entries, so `sorted_types[0]` exists; the empty-input
branch is unreachable. -/
def computeTopTypes (items : List (String × Nat)) : List String :=
  match sortDesc items with
  | [] => []
  | top :: rest =>
    let max_score := top.2
    let tops := (((top :: rest).filter (fun x => x.2 = max_score ∧ 0 < x.2)).map Prod.fst).take 2
    if tops.isEmpty then [top.1] else tops

/-- Career aggregation of assess (src/main.py lines 92-96): for each top
type in order, append the first 3 of its CAREER_MAP entry, skipping
titles already collected. -/
def suggestedCareers (top_types : List String) : List String :=
  top_types.foldl
    (fun acc t => ((CAREER_MAP t).take 3).foldl
      (fun acc2 c => if c ∈ acc2 then acc2 else acc2 ++ [c]) acc)
    []

/-- The document handed to create_document (src/main.py lines 103-113). -/
structure PersistDoc where
  name : Option String
  email : Option String
  scores : List (String × Nat)
  top_types : List String
  careers : List String
  summary : String
deriving Repr, DecidableEq

/-- The JSON object returned by assess (src/main.py lines 118-124);
`id` is None when persistence failed. -/
structure AssessmentResult where
  id : Option String
  scores : List (String × Nat)
  top_types : List String
  careers : List String
  summary : String
deriving Repr, DecidableEq

/-- `POST /api/assess` (src/main.py lines 71-124). `create_document` is the
persistence collaborator; the code catches every exception it raises, so it
is modelled as returning Except, with the error swallowed into
`doc_id = None`. -/
def assess (create_document : String → PersistDoc → Except String String)
    (req : AssessmentRequest) : Except HTTPError AssessmentResult :=
  match tally (fun _ => 0) req.answers with
  | Except.error e => Except.error e
  | Except.ok f =>
    let scores := scoresItems f
    let top_types := computeTopTypes scores
    let suggested := suggestedCareers top_types
    let summary := String.intercalate " " (top_types.map SUMMARY_BLURBS)
    let doc_id : Option String :=
      match create_document "assessmentresult"
        ⟨req.name, req.email, scores, top_types, suggested, summary⟩ with
      | Except.ok i => some i
      | Except.error _ => none
    Except.ok ⟨doc_id, scores, top_types, suggested, summary⟩

/-- The shape of one entry of the `GET /api/questions` response: only id,
text and the two option labels — no category tag field exists in it. -/
structure QuestionOut where
  id : Int
  text : String
  optionA : String
  optionB : String
deriving Repr, DecidableEq

/-- `GET /api/questions` (src/main.py lines 66-69): a projection of the
catalog, in catalog order, without the type tag. -/
def get_questions : List QuestionOut :=
  QUESTIONS.map (fun q => ⟨q.id, q.text, q.A, q.B⟩)

/-! ### Spec-side definitions (for refinement claims)

These follow the wording of the specification, to be compared with the
code-derived definitions above. -/

/-- Modelled from the spec: the maximum category score over the canonical
category order. -/
def specMaxScore (f : String → Nat) : Nat :=
  (categoryKeys.map f).foldr max 0

/-- Modelled from the spec: top-type selection as the spec words it —
every category whose score equals the maximum and is positive, enumerated
in canonical order R, I, A, S, E, C, truncated to the first 2; if no
category scores positively, the single-element list ["R"]. -/
def specTopTypes (f : String → Nat) : List String :=
  if specMaxScore f = 0 then ["R"]
  else (categoryKeys.filter (fun t => f t = specMaxScore f ∧ 0 < f t)).take 2

/-! ### Properties of the stable descending sort -/

theorem insertDesc_perm (p : String × Nat) (l : List (String × Nat)) :
    (insertDesc p l).Perm (p :: l) := by
  induction l with
  | nil => simp [insertDesc]
  | cons q rest ih =>
    simp only [insertDesc]
    split
    · exact List.Perm.refl _
    · exact (ih.cons q).trans (List.Perm.swap p q rest)

theorem sortDesc_perm (l : List (String × Nat)) : (sortDesc l).Perm l := by
  induction l with
  | nil => simp [sortDesc]
  | cons p rest ih => exact (insertDesc_perm p (sortDesc rest)).trans (ih.cons p)

theorem insertDesc_sorted (p : String × Nat) (l : List (String × Nat))
    (h : List.Sorted (fun x y : String × Nat => y.2 ≤ x.2) l) :
    List.Sorted (fun x y : String × Nat => y.2 ≤ x.2) (insertDesc p l) := by
  induction l with
  | nil => simp [insertDesc]
  | cons q rest ih =>
    rw [List.sorted_cons] at h
    obtain ⟨hq, hrest⟩ := h
    simp only [insertDesc]
    split
    · next hle =>
      rw [List.sorted_cons]
      refine ⟨?_, List.sorted_cons.mpr ⟨hq, hrest⟩⟩
      intro b hb
      rcases List.mem_cons.mp hb with hbq | hbr
      · subst hbq; exact hle
      · exact (hq b hbr).trans hle
    · next hgt =>
      rw [List.sorted_cons]
      refine ⟨?_, ih hrest⟩
      intro b hb
      have hb' : b ∈ p :: rest := (insertDesc_perm p rest).mem_iff.mp hb
      rcases List.mem_cons.mp hb' with hbp | hbr
      · subst hbp; omega
      · exact hq b hbr

theorem sortDesc_sorted (l : List (String × Nat)) :
    List.Sorted (fun x y : String × Nat => y.2 ≤ x.2) (sortDesc l) := by
  induction l with
  | nil => simp [sortDesc]
  | cons p rest ih => exact insertDesc_sorted p (sortDesc rest) ih

theorem filter_insertDesc (m : Nat) (p : String × Nat) (l : List (String × Nat)) :
    (insertDesc p l).filter (fun x => decide (x.2 = m)) =
      if p.2 = m then p :: l.filter (fun x => decide (x.2 = m))
      else l.filter (fun x => decide (x.2 = m)) := by
  induction l with
  | nil =>
    by_cases hp : p.2 = m <;> simp [insertDesc, List.filter_cons, hp]
  | cons q rest ih =>
    simp only [insertDesc]
    split
    · next hle =>
      by_cases hp : p.2 = m <;> simp [List.filter_cons, hp]
    · next hgt =>
      push_neg at hgt
      by_cases hp : p.2 = m
      · have hq : ¬(q.2 = m) := by omega
        simp [List.filter_cons, hq, ih, hp]
      · by_cases hq : q.2 = m <;> simp [List.filter_cons, hq, ih, hp]

theorem sortDesc_filter (m : Nat) (l : List (String × Nat)) :
    (sortDesc l).filter (fun x => decide (x.2 = m)) =
      l.filter (fun x => decide (x.2 = m)) := by
  induction l with
  | nil => rfl
  | cons p rest ih =>
    simp only [sortDesc]
    rw [filter_insertDesc]
    by_cases hp : p.2 = m <;> simp [List.filter_cons, hp, ih]

theorem computeTopTypes_cons (items : List (String × Nat)) (top : String × Nat)
    (rest : List (String × Nat)) (h : sortDesc items = top :: rest) :
    computeTopTypes items =
      (let tops := (((top :: rest).filter
          (fun x => decide (x.2 = top.2 ∧ 0 < x.2))).map Prod.fst).take 2
       if tops.isEmpty then [top.1] else tops) := by
  unfold computeTopTypes
  rw [h]

theorem scoresItems_mem (f : String → Nat) (k : String) (hk : k ∈ categoryKeys) :
    (k, f k) ∈ scoresItems f :=
  List.mem_map_of_mem (fun k => (k, f k)) hk

/-- The central lemma: on the six-entry scores dict, the code's
top-type computation (stable sort, filter, truncate, fallback) agrees
with the canonical-order description of the spec. -/
theorem computeTopTypes_eq_spec (f : String → Nat) :
    computeTopTypes (scoresItems f) = specTopTypes f := by
  have hperm0 := sortDesc_perm (scoresItems f)
  have hsorted0 := sortDesc_sorted (scoresItems f)
  match hs : sortDesc (scoresItems f) with
  | [] =>
    rw [hs] at hperm0
    have hlen := hperm0.length_eq
    simp [scoresItems, categoryKeys] at hlen
  | top :: rest =>
    rw [hs] at hperm0 hsorted0
    have htopmem : top ∈ scoresItems f :=
      hperm0.mem_iff.mp (List.mem_cons_self top rest)
    have hmax : ∀ x ∈ scoresItems f, x.2 ≤ top.2 := by
      intro x hx
      have hx' : x ∈ top :: rest := hperm0.mem_iff.mpr hx
      rcases List.mem_cons.mp hx' with hxe | hxr
      · subst hxe; exact Nat.le_refl _
      · exact (List.sorted_cons.mp hsorted0).1 x hxr
    have hR : f "R" ≤ top.2 := hmax _ (scoresItems_mem f "R" (by simp [categoryKeys]))
    have hI : f "I" ≤ top.2 := hmax _ (scoresItems_mem f "I" (by simp [categoryKeys]))
    have hA : f "A" ≤ top.2 := hmax _ (scoresItems_mem f "A" (by simp [categoryKeys]))
    have hS : f "S" ≤ top.2 := hmax _ (scoresItems_mem f "S" (by simp [categoryKeys]))
    have hE : f "E" ≤ top.2 := hmax _ (scoresItems_mem f "E" (by simp [categoryKeys]))
    have hC : f "C" ≤ top.2 := hmax _ (scoresItems_mem f "C" (by simp [categoryKeys]))
    have hvals : top.2 = f "R" ∨ top.2 = f "I" ∨ top.2 = f "A" ∨
        top.2 = f "S" ∨ top.2 = f "E" ∨ top.2 = f "C" := by
      have h6 := htopmem
      simp only [scoresItems, categoryKeys, List.map, List.mem_cons,
        List.not_mem_nil, or_false] at h6
      rcases h6 with h | h | h | h | h | h <;> simp [h]
    have hspecval : specMaxScore f =
        max (f "R") (max (f "I") (max (f "A") (max (f "S") (max (f "E") (max (f "C") 0))))) := rfl
    have htop2 : top.2 = specMaxScore f := by
      rw [hspecval]
      rcases hvals with h | h | h | h | h | h <;> omega
    rw [computeTopTypes_cons _ _ _ hs]
    by_cases hM0 : specMaxScore f = 0
    · have hallzero : ∀ x ∈ scoresItems f, x.2 = 0 := by
        intro x hx
        have := hmax x hx
        omega
      have hfilter : (top :: rest).filter (fun x => decide (x.2 = top.2 ∧ 0 < x.2)) = [] := by
        rw [List.filter_eq_nil_iff]
        intro x hx
        have hx0 : x.2 = 0 := hallzero x (hperm0.mem_iff.mp hx)
        simp only [decide_eq_true_eq, not_and]
        intro _
        omega
      have hid : sortDesc (scoresItems f) = scoresItems f := by
        have hall1 : ∀ x ∈ sortDesc (scoresItems f), (fun x : String × Nat => decide (x.2 = 0)) x = true := by
          intro x hx
          simp [hallzero x ((sortDesc_perm (scoresItems f)).mem_iff.mp hx)]
        have hall2 : ∀ x ∈ scoresItems f, (fun x : String × Nat => decide (x.2 = 0)) x = true := by
          intro x hx
          simp [hallzero x hx]
        calc sortDesc (scoresItems f)
            = (sortDesc (scoresItems f)).filter (fun x => decide (x.2 = 0)) :=
              (List.filter_eq_self.mpr hall1).symm
          _ = (scoresItems f).filter (fun x => decide (x.2 = 0)) :=
              sortDesc_filter 0 (scoresItems f)
          _ = scoresItems f := List.filter_eq_self.mpr hall2
      rw [hid] at hs
      have htopR : top = ("R", f "R") := by
        simp only [scoresItems, categoryKeys, List.map] at hs
        injection hs with h1 _
        exact h1.symm
      rw [hfilter]
      simp [specTopTypes, hM0, htopR]
    · have hMpos : 0 < specMaxScore f := Nat.pos_of_ne_zero hM0
      have hcongr : (top :: rest).filter (fun x => decide (x.2 = top.2 ∧ 0 < x.2)) =
          (top :: rest).filter (fun x => decide (x.2 = top.2)) := by
        apply List.filter_congr
        intro x _
        rw [decide_eq_decide]
        constructor
        · exact fun hx => hx.1
        · intro hx
          refine ⟨hx, ?_⟩
          omega
      rw [hcongr, ← hs, sortDesc_filter]
      have htopfilt : top ∈ (scoresItems f).filter (fun x => decide (x.2 = top.2)) := by
        rw [List.mem_filter]
        exact ⟨htopmem, by simp⟩
      have hne : ((scoresItems f).filter (fun x => decide (x.2 = top.2))) ≠ [] :=
        List.ne_nil_of_mem htopfilt
      have hfm : ((scoresItems f).filter (fun x => decide (x.2 = top.2))).map Prod.fst =
          categoryKeys.filter (fun t => decide (f t = top.2)) := by
        simp [scoresItems, List.filter_map, Function.comp_def, List.map_map]
      have hnonempty : ¬((((scoresItems f).filter (fun x => decide (x.2 = top.2))).map
          Prod.fst).take 2).isEmpty = true := by
        rw [List.isEmpty_iff, List.take_eq_nil_iff]
        push_neg
        constructor
        · omega
        · simp [hne]
      rw [Bool.not_eq_true] at hnonempty
      have hspec : specTopTypes f =
          (categoryKeys.filter (fun t => decide (f t = specMaxScore f))).take 2 := by
        rw [specTopTypes, if_neg hM0]
        congr 1
        apply List.filter_congr
        intro t _
        rw [decide_eq_decide]
        constructor
        · exact fun hx => hx.1
        · intro hx
          refine ⟨hx, ?_⟩
          omega
      simp only [hnonempty, Bool.false_eq_true, if_false]
      rw [hfm, hspec, htop2]

/-! ### Properties of the tally loop -/

/-- The number of submitted answers whose choice is "A". -/
def countA (answers : List Answer) : Nat :=
  (answers.filter (fun a => a.choice = "A")).length

/-- The number of "A" answers whose question carries category k. -/
def countAK (k : String) (answers : List Answer) : Nat :=
  (answers.filter (fun a =>
    a.choice = "A" ∧ (q_lookup a.question_id).map Question.type = some k)).length

/-- The sum of the six category counters. -/
def sumScores (f : String → Nat) : Nat :=
  f "R" + f "I" + f "A" + f "S" + f "E" + f "C"

theorem QUESTIONS_type_mem : ∀ q ∈ QUESTIONS, q.type ∈ categoryKeys := by decide

theorem sumScores_bump (f : String → Nat) (k : String) (hk : k ∈ categoryKeys) :
    sumScores (bump f k) = sumScores f + 1 := by
  fin_cases hk <;> simp [sumScores, bump] <;> omega

theorem tally_ok_sum (l : List Answer) : ∀ f g : String → Nat,
    tally f l = Except.ok g → sumScores g = sumScores f + countA l := by
  induction l with
  | nil =>
    intro f g h
    simp only [tally] at h
    injection h with h
    subst h
    simp [countA]
  | cons ans rest ih =>
    intro f g h
    cases hq : q_lookup ans.question_id with
    | none =>
      simp only [tally, hq] at h
      cases h
    | some q =>
      simp only [tally, hq] at h
      by_cases hbad : ans.choice ≠ "A" ∧ ans.choice ≠ "B"
      · rw [if_pos hbad] at h
        cases h
      · rw [if_neg hbad] at h
        by_cases hA : ans.choice = "A"
        · rw [if_pos hA] at h
          have hsum := ih (bump f q.type) g h
          have hqmem : q ∈ QUESTIONS := by
            rw [q_lookup] at hq
            exact List.mem_of_find?_eq_some hq
          rw [hsum, sumScores_bump f q.type (QUESTIONS_type_mem q hqmem)]
          simp [countA, List.filter_cons, hA]
          omega
        · rw [if_neg hA] at h
          rw [ih f g h]
          simp [countA, List.filter_cons, hA]

theorem tally_ok_key (l : List Answer) : ∀ f g : String → Nat,
    tally f l = Except.ok g → ∀ k, g k = f k + countAK k l := by
  induction l with
  | nil =>
    intro f g h k
    simp only [tally] at h
    injection h with h
    subst h
    simp [countAK]
  | cons ans rest ih =>
    intro f g h k
    cases hq : q_lookup ans.question_id with
    | none =>
      simp only [tally, hq] at h
      cases h
    | some q =>
      simp only [tally, hq] at h
      by_cases hbad : ans.choice ≠ "A" ∧ ans.choice ≠ "B"
      · rw [if_pos hbad] at h
        cases h
      · rw [if_neg hbad] at h
        by_cases hA : ans.choice = "A"
        · rw [if_pos hA] at h
          rw [ih (bump f q.type) g h k]
          simp only [countAK, List.filter_cons, hA, hq, Option.map_some, true_and]
          by_cases hk : q.type = k
          · subst hk
            simp [bump]
            omega
          · have hk2 : ¬(k = q.type) := fun hc => hk hc.symm
            simp [bump, hk2, hk]
        · rw [if_neg hA] at h
          rw [ih f g h k]
          simp [countAK, List.filter_cons, hA]

/-! ### Error characterisation of the validation loop -/

/-- The error the loop raises at a given answer, if any: the unknown-id
check comes first, then the choice check (src/main.py lines 79-82). -/
def answerError (a : Answer) : Option HTTPError :=
  match q_lookup a.question_id with
  | none => some ⟨400, "Invalid question id: " ++ toString a.question_id⟩
  | some _ =>
    if a.choice ≠ "A" ∧ a.choice ≠ "B" then
      some ⟨400, "Choice must be \x27A\x27 or \x27B\x27"⟩
    else none

/-- The error of the first offending answer in input order, if any. -/
def firstError : List Answer → Option HTTPError
  | [] => none
  | a :: rest =>
    match answerError a with
    | some e => some e
    | none => firstError rest

theorem tally_error_iff (l : List Answer) : ∀ (f : String → Nat) (e : HTTPError),
    tally f l = Except.error e ↔ firstError l = some e := by
  induction l with
  | nil => intro f e; simp [tally, firstError]
  | cons a rest ih =>
    intro f e
    cases hq : q_lookup a.question_id with
    | none => simp [tally, firstError, answerError, hq]
    | some q =>
      by_cases hbad : a.choice ≠ "A" ∧ a.choice ≠ "B"
      · simp [tally, firstError, answerError, hq, hbad]
      · by_cases hA : a.choice = "A"
        · simp [tally, firstError, answerError, hq, hbad, hA, ih]
        · have hB : a.choice = "B" := by
            push_neg at hbad
            exact hbad hA
          simp [tally, firstError, answerError, hq, hB, ih]

theorem firstError_none_iff (l : List Answer) :
    firstError l = none ↔ ∀ a ∈ l, answerError a = none := by
  induction l with
  | nil => simp [firstError]
  | cons a rest ih =>
    cases ha : answerError a <;> simp [firstError, ha, ih]

theorem firstError_status (l : List Answer) : ∀ e : HTTPError,
    firstError l = some e → e.status_code = 400 := by
  induction l with
  | nil => intro e h; simp [firstError] at h
  | cons a rest ih =>
    intro e h
    cases hq : q_lookup a.question_id with
    | none =>
      simp [firstError, answerError, hq] at h
      rw [← h]
    | some q =>
      by_cases hbad : a.choice ≠ "A" ∧ a.choice ≠ "B"
      · simp [firstError, answerError, hq, hbad] at h
        rw [← h]
      · simp [firstError, answerError, hq, hbad] at h
        exact ih e h

theorem answerError_ne_none_iff (a : Answer) :
    answerError a ≠ none ↔
      (q_lookup a.question_id = none ∨ (a.choice ≠ "A" ∧ a.choice ≠ "B")) := by
  cases hq : q_lookup a.question_id with
  | none => simp [answerError, hq]
  | some q =>
    by_cases hbad : a.choice ≠ "A" ∧ a.choice ≠ "B" <;> simp [answerError, hq, hbad]

theorem assess_error_iff (cd : String → PersistDoc → Except String String)
    (req : AssessmentRequest) (e : HTTPError) :
    assess cd req = Except.error e ↔ tally (fun _ => 0) req.answers = Except.error e := by
  unfold assess
  cases h : tally (fun _ => 0) req.answers <;> simp

/-! ### Properties of career aggregation -/

theorem dedup_foldl_nodup (cs : List String) : ∀ acc : List String, acc.Nodup →
    (cs.foldl (fun acc2 c => if c ∈ acc2 then acc2 else acc2 ++ [c]) acc).Nodup := by
  induction cs with
  | nil => intro acc h; exact h
  | cons c cs ih =>
    intro acc h
    simp only [List.foldl_cons]
    by_cases hc : c ∈ acc
    · rw [if_pos hc]
      exact ih acc h
    · rw [if_neg hc]
      refine ih (acc ++ [c]) ?_
      simp [List.nodup_append, h, hc]

theorem dedup_foldl_length (cs : List String) : ∀ acc : List String,
    (cs.foldl (fun acc2 c => if c ∈ acc2 then acc2 else acc2 ++ [c]) acc).length ≤
      acc.length + cs.length := by
  induction cs with
  | nil => intro acc; simp
  | cons c cs ih =>
    intro acc
    simp only [List.foldl_cons]
    by_cases hc : c ∈ acc
    · rw [if_pos hc]
      have := ih acc
      simp only [List.length_cons]
      omega
    · rw [if_neg hc]
      have := ih (acc ++ [c])
      simp only [List.length_append, List.length_cons, List.length_nil] at this ⊢
      omega

theorem suggestedCareers_nodup (tt : List String) : (suggestedCareers tt).Nodup := by
  have hgen : ∀ acc : List String, acc.Nodup →
      (tt.foldl (fun acc t => ((CAREER_MAP t).take 3).foldl
        (fun acc2 c => if c ∈ acc2 then acc2 else acc2 ++ [c]) acc) acc).Nodup := by
    induction tt with
    | nil => intro acc h; exact h
    | cons t tt ih =>
      intro acc h
      simp only [List.foldl_cons]
      exact ih _ (dedup_foldl_nodup ((CAREER_MAP t).take 3) acc h)
  exact hgen [] List.nodup_nil

theorem suggestedCareers_length (tt : List String) :
    (suggestedCareers tt).length ≤ 3 * tt.length := by
  have hgen : ∀ acc : List String,
      (tt.foldl (fun acc t => ((CAREER_MAP t).take 3).foldl
        (fun acc2 c => if c ∈ acc2 then acc2 else acc2 ++ [c]) acc) acc).length ≤
        acc.length + 3 * tt.length := by
    induction tt with
    | nil => intro acc; simp
    | cons t tt ih =>
      intro acc
      simp only [List.foldl_cons]
      have h1 := ih (((CAREER_MAP t).take 3).foldl
        (fun acc2 c => if c ∈ acc2 then acc2 else acc2 ++ [c]) acc)
      have h2 := dedup_foldl_length ((CAREER_MAP t).take 3) acc
      have h3 : ((CAREER_MAP t).take 3).length ≤ 3 := by
        have := List.length_take_le 3 (CAREER_MAP t)
        omega
      simp only [List.length_cons]
      omega
  have h := hgen []
  simp only [List.length_nil] at h
  rw [suggestedCareers]
  omega

/-! ### Shape of the selected top types -/

theorem specMaxScore_cases (f : String → Nat) :
    specMaxScore f = f "R" ∨ specMaxScore f = f "I" ∨ specMaxScore f = f "A" ∨
      specMaxScore f = f "S" ∨ specMaxScore f = f "E" ∨ specMaxScore f = f "C" := by
  have hval : specMaxScore f =
      max (f "R") (max (f "I") (max (f "A") (max (f "S") (max (f "E") (max (f "C") 0))))) := rfl
  omega

theorem specTopTypes_length (f : String → Nat) :
    1 ≤ (specTopTypes f).length ∧ (specTopTypes f).length ≤ 2 := by
  by_cases h0 : specMaxScore f = 0
  · simp [specTopTypes, h0]
  · have hub : (specTopTypes f).length ≤ 2 := by
      simp only [specTopTypes, if_neg h0]
      have := List.length_take_le 2
        (categoryKeys.filter (fun t => decide (f t = specMaxScore f ∧ 0 < f t)))
      omega
    refine ⟨?_, hub⟩
    simp only [specTopTypes, if_neg h0, List.length_take]
    have hpos : 0 < specMaxScore f := Nat.pos_of_ne_zero h0
    have hmem : ∃ k ∈ categoryKeys, f k = specMaxScore f := by
      rcases specMaxScore_cases f with h | h | h | h | h | h
      · exact ⟨"R", by simp [categoryKeys], h.symm⟩
      · exact ⟨"I", by simp [categoryKeys], h.symm⟩
      · exact ⟨"A", by simp [categoryKeys], h.symm⟩
      · exact ⟨"S", by simp [categoryKeys], h.symm⟩
      · exact ⟨"E", by simp [categoryKeys], h.symm⟩
      · exact ⟨"C", by simp [categoryKeys], h.symm⟩
    obtain ⟨k, hk, hfk⟩ := hmem
    have hkf : k ∈ categoryKeys.filter (fun t => decide (f t = specMaxScore f ∧ 0 < f t)) := by
      rw [List.mem_filter]
      refine ⟨hk, ?_⟩
      simp only [decide_eq_true_eq]
      exact ⟨hfk, by omega⟩
    have hlen : 0 < (categoryKeys.filter
        (fun t => decide (f t = specMaxScore f ∧ 0 < f t))).length :=
      List.length_pos.mpr (List.ne_nil_of_mem hkf)
    omega

theorem specTopTypes_sub (f : String → Nat) :
    (specTopTypes f).Nodup ∧ ∀ t ∈ specTopTypes f, t ∈ categoryKeys := by
  have hkeys : categoryKeys.Nodup := by decide
  by_cases h0 : specMaxScore f = 0
  · simp [specTopTypes, h0, categoryKeys]
  · simp only [specTopTypes, if_neg h0]
    have hsub : List.Sublist ((categoryKeys.filter
        (fun t => decide (f t = specMaxScore f ∧ 0 < f t))).take 2) categoryKeys :=
      (List.take_sublist 2 _).trans (List.filter_sublist categoryKeys)
    exact ⟨hsub.nodup hkeys, fun t ht => hsub.subset ht⟩

/-! ### The summary join -/

/-- Modelled from the spec: blurbs concatenated in order with consecutive
entries separated by exactly one space; a single entry stands alone. -/
def specJoin : List String → String
  | [] => ""
  | [x] => x
  | x :: y :: rest => x ++ " " ++ specJoin (y :: rest)

theorem go_append (s : String) (as : List String) : ∀ acc₁ acc₂ : String,
    String.intercalate.go (acc₁ ++ acc₂) s as = acc₁ ++ String.intercalate.go acc₂ s as := by
  induction as with
  | nil => intro acc₁ acc₂; rfl
  | cons a as ih =>
    intro acc₁ acc₂
    show String.intercalate.go (acc₁ ++ acc₂ ++ s ++ a) s as =
      acc₁ ++ String.intercalate.go (acc₂ ++ s ++ a) s as
    rw [show acc₁ ++ acc₂ ++ s ++ a = acc₁ ++ (acc₂ ++ s ++ a) by
      simp [String.append_assoc]]
    exact ih acc₁ (acc₂ ++ s ++ a)

theorem intercalate_eq_specJoin : ∀ l : List String, String.intercalate " " l = specJoin l
  | [] => rfl
  | [x] => rfl
  | x :: y :: rest => by
    have ih := intercalate_eq_specJoin (y :: rest)
    show String.intercalate.go x " " (y :: rest) = specJoin (x :: y :: rest)
    show String.intercalate.go (x ++ " " ++ y) " " rest = specJoin (x :: y :: rest)
    have h2 : String.intercalate.go ((x ++ " ") ++ y) " " rest =
        (x ++ " ") ++ String.intercalate.go y " " rest :=
      go_append " " rest (x ++ " ") y
    rw [h2]
    show (x ++ " ") ++ String.intercalate " " (y :: rest) = specJoin (x :: y :: rest)
    rw [ih]
    rfl

/-! ### Decomposition of a successful assess call -/

theorem assess_ok_parts (cd : String → PersistDoc → Except String String)
    (req : AssessmentRequest) (res : AssessmentResult)
    (h : assess cd req = Except.ok res) :
    ∃ f, tally (fun _ => 0) req.answers = Except.ok f ∧
      res.scores = scoresItems f ∧
      res.top_types = computeTopTypes (scoresItems f) ∧
      res.careers = suggestedCareers (computeTopTypes (scoresItems f)) ∧
      res.summary = String.intercalate " "
        ((computeTopTypes (scoresItems f)).map SUMMARY_BLURBS) := by
  unfold assess at h
  cases htal : tally (fun _ => 0) req.answers with
  | error e =>
    rw [htal] at h
    cases h
  | ok f =>
    rw [htal] at h
    injection h with h
    subst h
    exact ⟨f, rfl, rfl, rfl, rfl, rfl⟩

/-! ### Concrete fixtures -/

/-- A persistence collaborator whose create_document call succeeds. -/
def dbUp : String → PersistDoc → Except String String := fun _ _ => Except.ok "doc1"

/-- A persistence collaborator whose create_document call always raises. -/
def dbDown : String → PersistDoc → Except String String := fun _ _ =>
  Except.error "store unavailable"

/-- A request answering question 1 with "A". -/
def reqR : AssessmentRequest := ⟨none, none, [⟨1, "A"⟩]⟩

/-- The response assess produces for reqR when persistence succeeds. -/
def resR : AssessmentResult :=
  ⟨some "doc1", [("R", 1), ("I", 0), ("A", 0), ("S", 0), ("E", 0), ("C", 0)], ["R"],
    ["Mechanical Engineer", "Electrician", "Carpenter"],
    "Hands-on, practical, and mechanical. You enjoy building, fixing, and working with tools."⟩

/-- A request with 13 answers, all answering question 1 with "A". -/
def req13 : AssessmentRequest := ⟨none, none, List.replicate 13 ⟨1, "A"⟩⟩

/-- The response assess produces for req13 when persistence fails. -/
def res13 : AssessmentResult :=
  ⟨none, [("R", 13), ("I", 0), ("A", 0), ("S", 0), ("E", 0), ("C", 0)], ["R"],
    ["Mechanical Engineer", "Electrician", "Carpenter"],
    "Hands-on, practical, and mechanical. You enjoy building, fixing, and working with tools."⟩

/-- A request whose only answer references the unknown question id 999. -/
def reqBad : AssessmentRequest := ⟨none, none, [⟨999, "A"⟩]⟩

/-! ### Claims -/

/-- Claim C1: for every valid answer list, assess selects top_types as
follows — if some category has a positive score, top_types is the list of
every category whose score equals the maximum and is positive, enumerated
in the canonical order R, I, A, S, E, C and truncated to the first 2; if no
category has a positive score, top_types is the single-element list ["R"]
(the first category in canonical order). specTopTypes is that rule written
from the spec. -/
theorem assess_topTypes_canonical (cd : String → PersistDoc → Except String String)
    (req : AssessmentRequest) (f : String → Nat) (res : AssessmentResult)
    (htally : tally (fun _ => 0) req.answers = Except.ok f)
    (h : assess cd req = Except.ok res) :
    res.top_types = specTopTypes f := by
  obtain ⟨g, hg, _, htt, _, _⟩ := assess_ok_parts cd req res h
  rw [htally] at hg
  injection hg with hg
  subst hg
  rw [htt, computeTopTypes_eq_spec]

theorem assess_topTypes_canonical_witness :
    resR.top_types = specTopTypes (bump (fun _ => 0) "R") :=
  assess_topTypes_canonical dbUp reqR (bump (fun _ => 0) "R") resR rfl rfl

/-- Claim C2: for every answer list that passes validation, the scores
mapping has exactly the six keys R, I, A, S, E, C in order, every value is
non-negative, the sum of the six values equals the number of answers whose
choice is "A", and each category counter equals the number of "A" answers
whose question carries that category. -/
theorem assess_scores_shape (cd : String → PersistDoc → Except String String)
    (req : AssessmentRequest) (res : AssessmentResult)
    (h : assess cd req = Except.ok res) :
    res.scores.map Prod.fst = categoryKeys ∧
    (∀ p ∈ res.scores, 0 ≤ p.2) ∧
    (res.scores.map Prod.snd).sum = countA req.answers ∧
    (∀ k ∈ categoryKeys, res.scores.lookup k = some (countAK k req.answers)) := by
  obtain ⟨f, htally, hsc, _, _, _⟩ := assess_ok_parts cd req res h
  rw [hsc]
  have hsum := tally_ok_sum req.answers (fun _ => 0) f htally
  have hkey := tally_ok_key req.answers (fun _ => 0) f htally
  have hzero : sumScores (fun _ => 0) = 0 := rfl
  refine ⟨by simp [scoresItems, categoryKeys], fun p _ => Nat.zero_le _, ?_, ?_⟩
  · have hexp : ((scoresItems f).map Prod.snd).sum = sumScores f := by
      simp [scoresItems, categoryKeys, sumScores]
      omega
    rw [hexp]
    omega
  · intro k hk
    have hk2 : ∀ k, f k = countAK k req.answers := by
      intro k
      have := hkey k
      simpa using this
    fin_cases hk <;> simp [scoresItems, categoryKeys, List.lookup, hk2]

theorem assess_scores_shape_witness :
    resR.scores.map Prod.fst = categoryKeys ∧
    (∀ p ∈ resR.scores, 0 ≤ p.2) ∧
    (resR.scores.map Prod.snd).sum = countA reqR.answers ∧
    (∀ k ∈ categoryKeys, resR.scores.lookup k = some (countAK k reqR.answers)) :=
  assess_scores_shape dbUp reqR resR rfl

/-- Claim C3: assess fails with a 4xx error exactly when some submitted
answer references an unknown question id or a choice other than "A"/"B";
the raised error is the one of the first offending answer in input order
(unknown id checked before bad choice), and no result is returned. -/
theorem assess_4xx_characterisation (cd : String → PersistDoc → Except String String)
    (req : AssessmentRequest) :
    ((∃ e, assess cd req = Except.error e ∧ 400 ≤ e.status_code ∧ e.status_code < 500) ↔
      ∃ a ∈ req.answers,
        q_lookup a.question_id = none ∨ (a.choice ≠ "A" ∧ a.choice ≠ "B")) ∧
    (∀ e, assess cd req = Except.error e → firstError req.answers = some e) := by
  constructor
  · constructor
    · rintro ⟨e, he, _, _⟩
      have hfe := (tally_error_iff req.answers _ e).mp ((assess_error_iff cd req e).mp he)
      have hne : firstError req.answers ≠ none := by
        rw [hfe]
        simp
      rw [Ne, firstError_none_iff] at hne
      push_neg at hne
      obtain ⟨a, ha, hbad⟩ := hne
      exact ⟨a, ha, (answerError_ne_none_iff a).mp hbad⟩
    · rintro ⟨a, ha, hbad⟩
      have h1 : answerError a ≠ none := (answerError_ne_none_iff a).mpr hbad
      have h2 : firstError req.answers ≠ none := by
        rw [Ne, firstError_none_iff]
        push_neg
        exact ⟨a, ha, h1⟩
      obtain ⟨e, he⟩ := Option.ne_none_iff_exists'.mp h2
      have hst := firstError_status req.answers e he
      refine ⟨e, (assess_error_iff cd req e).mpr
        ((tally_error_iff req.answers _ e).mpr he), by omega, by omega⟩
  · intro e he
    exact (tally_error_iff req.answers _ e).mp ((assess_error_iff cd req e).mp he)

theorem assess_4xx_characterisation_witness :
    firstError reqBad.answers = some ⟨400, "Invalid question id: " ++ toString (999 : Int)⟩ :=
  (assess_4xx_characterisation dbUp reqBad).2
    ⟨400, "Invalid question id: " ++ toString (999 : Int)⟩ rfl

/-- Claim C4: if create_document fails with any error, assess still
succeeds and returns the same scores, top_types, careers and summary as a
run with working persistence; only the id becomes absent. -/
theorem assess_persistence_failure (cdFail cd2 : String → PersistDoc → Except String String)
    (req : AssessmentRequest) (res2 : AssessmentResult)
    (hfail : ∀ c d, ∃ err, cdFail c d = Except.error err)
    (h2 : assess cd2 req = Except.ok res2) :
    ∃ res, assess cdFail req = Except.ok res ∧ res.id = none ∧
      res.scores = res2.scores ∧ res.top_types = res2.top_types ∧
      res.careers = res2.careers ∧ res.summary = res2.summary := by
  unfold assess at h2 ⊢
  cases htal : tally (fun _ => 0) req.answers with
  | error e =>
    rw [htal] at h2
    cases h2
  | ok f =>
    rw [htal] at h2
    injection h2 with h2
    subst h2
    obtain ⟨err, herr⟩ := hfail "assessmentresult"
      ⟨req.name, req.email, scoresItems f, computeTopTypes (scoresItems f),
        suggestedCareers (computeTopTypes (scoresItems f)),
        String.intercalate " " ((computeTopTypes (scoresItems f)).map SUMMARY_BLURBS)⟩
    refine ⟨_, rfl, ?_, rfl, rfl, rfl, rfl⟩
    simp [herr]

theorem assess_persistence_failure_witness :
    ∃ res, assess dbDown reqR = Except.ok res ∧ res.id = none ∧
      res.scores = resR.scores ∧ res.top_types = resR.top_types ∧
      res.careers = resR.careers ∧ res.summary = resR.summary :=
  assess_persistence_failure dbDown dbUp reqR resR
    (fun _ _ => ⟨"store unavailable", rfl⟩) rfl

/-- Claim C5: the careers list is built by folding the selected top types
in order, appending at most the first 3 titles of each category's
CAREER_MAP entry while skipping titles already present; hence it has no
duplicates and at most 6 entries. -/
theorem assess_careers_deduplicated (cd : String → PersistDoc → Except String String)
    (req : AssessmentRequest) (res : AssessmentResult)
    (h : assess cd req = Except.ok res) :
    res.careers = suggestedCareers res.top_types ∧
    res.careers.Nodup ∧ res.careers.length ≤ 6 := by
  obtain ⟨f, _, _, htt, hc, _⟩ := assess_ok_parts cd req res h
  refine ⟨by rw [hc, htt], by rw [hc]; exact suggestedCareers_nodup _, ?_⟩
  rw [hc]
  have h1 := suggestedCareers_length (computeTopTypes (scoresItems f))
  have h2 : (computeTopTypes (scoresItems f)).length ≤ 2 := by
    rw [computeTopTypes_eq_spec]
    exact (specTopTypes_length f).2
  omega

theorem assess_careers_deduplicated_witness :
    resR.careers = suggestedCareers resR.top_types ∧
    resR.careers.Nodup ∧ resR.careers.length ≤ 6 :=
  assess_careers_deduplicated dbUp reqR resR rfl

/-- Claim C6: top_types always has length 1 or 2, draws its elements from
the six category codes, and contains no duplicates. -/
theorem assess_topTypes_shape (cd : String → PersistDoc → Except String String)
    (req : AssessmentRequest) (res : AssessmentResult)
    (h : assess cd req = Except.ok res) :
    (res.top_types.length = 1 ∨ res.top_types.length = 2) ∧
    (∀ t ∈ res.top_types, t ∈ categoryKeys) ∧ res.top_types.Nodup := by
  obtain ⟨f, _, _, htt, _, _⟩ := assess_ok_parts cd req res h
  rw [htt, computeTopTypes_eq_spec]
  have h1 := specTopTypes_length f
  have h2 := specTopTypes_sub f
  exact ⟨by omega, h2.2, h2.1⟩

theorem assess_topTypes_shape_witness :
    (resR.top_types.length = 1 ∨ resR.top_types.length = 2) ∧
    (∀ t ∈ resR.top_types, t ∈ categoryKeys) ∧ resR.top_types.Nodup :=
  assess_topTypes_shape dbUp reqR resR rfl

/-- Claim C7, counterexample: the code places no limit on the number of
answers — req13 (13 answers) is accepted by assess and its six scores sum
to 13, so "number of answers submitted ≤ 12" fails, and the scores sum
exceeds 12. -/
theorem assess_answers_over_12_cex :
    (assess dbDown req13).isOk = true ∧
    (assess dbDown req13).toOption.map (fun r => (r.scores.map Prod.snd).sum) = some 13 ∧
    req13.answers.length = 13 ∧ ¬(req13.answers.length ≤ 12) := by
  refine ⟨rfl, rfl, rfl, by decide⟩

/-- Claim C7, amended: for every request accepted by assess, the sum of
the six scores is at most the number of answers submitted (the code never
bounds the number of answers by 12). -/
theorem assess_scores_sum_le_answers (cd : String → PersistDoc → Except String String)
    (req : AssessmentRequest) (res : AssessmentResult)
    (h : assess cd req = Except.ok res) :
    (res.scores.map Prod.snd).sum ≤ req.answers.length := by
  obtain ⟨f, htally, hsc, _, _, _⟩ := assess_ok_parts cd req res h
  rw [hsc]
  have hsum := tally_ok_sum req.answers (fun _ => 0) f htally
  have hzero : sumScores (fun _ => 0) = 0 := rfl
  have hexp : ((scoresItems f).map Prod.snd).sum = sumScores f := by
    simp [scoresItems, categoryKeys, sumScores]
    omega
  have hfle : countA req.answers ≤ req.answers.length := by
    have := List.length_filter_le (fun a : Answer => decide (a.choice = "A")) req.answers
    simpa [countA] using this
  omega

theorem assess_scores_sum_le_answers_witness :
    (res13.scores.map Prod.snd).sum ≤ req13.answers.length :=
  assess_scores_sum_le_answers dbDown req13 res13 rfl

/-- Claim C8: the summary equals the blurbs of the selected top types, in
selection order, joined with exactly one space between consecutive blurbs
(specJoin); a single top type yields its blurb alone. -/
theorem assess_summary_join (cd : String → PersistDoc → Except String String)
    (req : AssessmentRequest) (res : AssessmentResult)
    (h : assess cd req = Except.ok res) :
    res.summary = specJoin (res.top_types.map SUMMARY_BLURBS) := by
  obtain ⟨f, _, _, htt, _, hsum⟩ := assess_ok_parts cd req res h
  rw [hsum, intercalate_eq_specJoin, htt]

theorem assess_summary_join_witness :
    resR.summary = specJoin (resR.top_types.map SUMMARY_BLURBS) :=
  assess_summary_join dbUp reqR resR rfl

/-- Claim C9: the questions endpoint returns the fixed projection of the
catalog — one entry per question in ascending id order 1..12, each only
id, text and the two option labels (QuestionOut has no category field);
being a constant of the embedding, repeated calls coincide. -/
theorem get_questions_fixed :
    get_questions = QUESTIONS.map (fun q => ⟨q.id, q.text, q.A, q.B⟩) ∧
    get_questions.map QuestionOut.id = [1, 2, 3, 4, 5, 6, 7, 8, 9, 10, 11, 12] ∧
    List.Chain' (· < ·) (get_questions.map QuestionOut.id) ∧
    get_questions.length = QUESTIONS.length := by
  refine ⟨rfl, rfl, ?_, rfl⟩
  rw [show get_questions.map QuestionOut.id =
    ([1, 2, 3, 4, 5, 6, 7, 8, 9, 10, 11, 12] : List Int) from rfl]
  simp [List.chain'_cons]

/-- Claim C10: assess neither deduplicates answers nor limits their count:
for any n, a request with n copies of the answer (question 1, "A") is
accepted and every copy increments the R counter, which ends at n. -/
theorem assess_no_dedup (cd : String → PersistDoc → Except String String) (n : Nat) :
    ∃ res, assess cd ⟨none, none, List.replicate n ⟨1, "A"⟩⟩ = Except.ok res ∧
      res.scores = scoresItems (fun k => if k = "R" then n else 0) ∧
      res.scores.lookup "R" = some n := by
  have htal : ∀ m : Nat, ∀ f : String → Nat,
      tally f (List.replicate m ⟨1, "A"⟩) =
        Except.ok (fun k => if k = "R" then f k + m else f k) := by
    intro m
    induction m with
    | zero =>
      intro f
      simp only [List.replicate, tally]
      congr 1
      funext k
      by_cases hk : k = "R" <;> simp [hk]
    | succ m ih =>
      intro f
      rw [List.replicate_succ]
      show tally (bump f "R") (List.replicate m ⟨1, "A"⟩) = _
      rw [ih (bump f "R")]
      congr 1
      funext k
      by_cases hk : k = "R"
      · simp [bump, hk]
        omega
      · simp [bump, hk]
  have htal0 : tally (fun _ => 0)
      (AssessmentRequest.mk none none (List.replicate n ⟨1, "A"⟩)).answers =
        Except.ok (fun k => if k = "R" then n else 0) := by
    have h0 := htal n (fun _ => 0)
    have heq : (fun k => if k = "R" then (fun _ : String => 0) k + n else (fun _ : String => 0) k)
        = (fun k : String => if k = "R" then n else 0) := by
      funext k
      by_cases hk : k = "R" <;> simp [hk]
    rw [heq] at h0
    exact h0
  unfold assess
  rw [htal0]
  refine ⟨_, rfl, rfl, ?_⟩
  simp [scoresItems, categoryKeys, List.lookup]
